import Mathlib

/-!
Verification of the binlog change-stream engine of `gh-ost2`
(`go/binlog/gomysql_reader.go`) against its natural-language specification.

The Go code is shallowly embedded: the reader state is a structure, the
stateful methods become state-passing functions, the hand-off channel becomes
the returned list of emitted entries, and a Go runtime panic (index out of
range) is a distinguished outcome.  Helpers of this repository that are not
part of the provided source (the coordinate comparisons, `ToEventDML`, the
entry constructors) are modelled from the specification and marked as such.
-/

/- ===== String helpers (Go `strings` package semantics) ===== -/

/-- Substring search on character lists: `listContainsSub pat s` is true iff
`pat` occurs contiguously inside `s` (the semantics of Go `strings.Contains`). -/
def listContainsSub (pat : List Char) : List Char → Bool
  | [] => pat.isEmpty
  | c :: rest => pat.isPrefixOf (c :: rest) || listContainsSub pat rest

/-- Go `strings.Contains s pat`. -/
def strContains (s pat : String) : Bool :=
  listContainsSub pat.data s.data

/-- Go `strings.ToLower` (character-wise lowering). -/
def strToLower (s : String) : String :=
  ⟨s.data.map Char.toLower⟩

theorem listContainsSub_iff (pat : List Char) (s : List Char) :
    listContainsSub pat s = true ↔ pat <:+: s := by
  induction s with
  | nil =>
      simp [listContainsSub, List.isEmpty_iff, List.infix_nil]
  | cons c rest ih =>
      simp only [listContainsSub, Bool.or_eq_true, List.isPrefixOf_iff_prefix, ih]
      constructor
      · rintro (h | h)
        · exact h.isInfix
        · exact h.trans (List.infix_cons (List.infix_refl rest))
      · rintro ⟨s₁, s₂, h⟩
        cases s₁ with
        | nil => left; exact ⟨s₂, by simpa using h⟩
        | cons d tl =>
            right
            refine ⟨tl, s₂, ?_⟩
            have := h
            simp only [List.cons_append] at this
            exact (List.cons.injEq _ _ _ _ ▸ this).2

theorem strContains_of_infix {s pat : String} (h : pat.data <:+: s.data) :
    strContains s pat = true := by
  rw [strContains, listContainsSub_iff]; exact h

/- ===== Go error values =====

Errors are modelled as trees of depth-1 wrapping: a typed MySQL protocol
error (`gomysql.MyError`, a leaf carrying a numeric code and a message), a
plain `errors.New` message, or a `fmt.Errorf("...: %w", cause)` wrapper whose
message is a prefix prepended to the message of its cause. -/

inductive GoError where
  | myError (code : Nat) (message : String) : GoError
  | simple (msg : String) : GoError
  | wrapped (pre : String) (cause : GoError) : GoError
deriving DecidableEq

/-- The rendered `Error()` message.  A `gomysql.MyError` renders as
`ERROR <code> (HY000): <message>` (external library behaviour); a wrapper
produced by `fmt.Errorf` with a trailing `%w` renders as its own prefix
followed by the message of the wrapped cause. -/
def errString : GoError → String
  | GoError.myError code message => "ERROR " ++ toString code ++ " (HY000): " ++ message
  | GoError.simple msg => msg
  | GoError.wrapped pre cause => pre ++ errString cause

/-- Go `errors.Unwrap` (one unwrapping step of a `%w` wrapper). -/
def unwrapOnce : GoError → Option GoError
  | GoError.wrapped _ cause => some cause
  | _ => none

/-- Go `errors.As(err, &myErr)` specialised to `*gomysql.MyError`: walk the
wrap chain and return the code of the first typed MySQL error found. -/
def errorsAsMyError : GoError → Option Nat
  | GoError.myError code _ => some code
  | GoError.simple _ => none
  | GoError.wrapped _ cause => errorsAsMyError cause

/- ===== MySQL error codes for authentication failures (source constants) ===== -/

def ER_DBACCESS_DENIED_ERROR : Nat := 1044

def ER_ACCESS_DENIED_ERROR : Nat := 1045

def ER_HOST_NOT_ALLOWED : Nat := 1130

def ER_ACCESS_DENIED_NO_PASSWORD : Nat := 1698

def ER_ACCOUNT_HAS_BEEN_LOCKED : Nat := 3118

/-- The switch cases of `isAuthenticationError`. -/
def authErrorCodes : List Nat :=
  [ER_ACCESS_DENIED_ERROR, ER_DBACCESS_DENIED_ERROR, ER_HOST_NOT_ALLOWED,
   ER_ACCESS_DENIED_NO_PASSWORD, ER_ACCOUNT_HAS_BEEN_LOCKED]

def accessDeniedText : String := "access denied"

def authenticationFailedText : String := "authentication failed"

/-- `isAuthenticationError` (gomysql_reader.go:224-247): a typed MySQL error
anywhere in the wrap chain whose code is one of the recognised auth-denial
codes, or — fallback — a rendered message containing, case-insensitively,
"access denied" or "authentication failed". -/
def isAuthenticationError (err : Option GoError) : Bool :=
  match err with
  | none => false
  | some e =>
      (match errorsAsMyError e with
       | some code => authErrorCodes.contains code
       | none => false)
      ||
      (let errStr := strToLower (errString e)
       strContains errStr accessDeniedText || strContains errStr authenticationFailedText)

/- ===== Coordinates (spec §3) ===== -/

/-- Modelled from the spec: `mysql.BinlogCoordinates` (go/mysql, not under
src/) — `\x7blogFile, logPosition, eventSize\x7d`, identifying a point in the
replication log (spec §3). -/
structure BinlogCoordinates where
  LogFile : String
  LogPos : Int
  EventSize : Int
deriving DecidableEq

/-- Modelled from the spec: `BinlogCoordinates.IsEmpty` (not under src/);
spec §7 calls a coordinate with no valid position "empty/unset". -/
def BinlogCoordinates.IsEmpty (c : BinlogCoordinates) : Bool :=
  c.LogFile = ""

/-- Lexicographic order on character lists (the Go `<` on strings,
byte-wise for ASCII log-file names). -/
def strLtChars : List Char → List Char → Bool
  | _, [] => false
  | [], _ :: _ => true
  | a :: as, b :: bs =>
      if a.toNat < b.toNat then true
      else if b.toNat < a.toNat then false
      else strLtChars as bs

/-- The Go `<` on strings. -/
def strLt (a b : String) : Bool := strLtChars a.data b.data

/-- Modelled from the spec: the coordinate ordering of spec §3 — compare
first by `logFile` (rotation boundary), then by `logPosition`. -/
def BinlogCoordinates.SmallerThan (c other : BinlogCoordinates) : Bool :=
  strLt c.LogFile other.LogFile || (c.LogFile = other.LogFile && c.LogPos < other.LogPos)

/-- Modelled from the spec: `c ≤ other` in the ordering of spec §3; equality
requires both fields equal. -/
def BinlogCoordinates.SmallerThanOrEquals (c other : BinlogCoordinates) : Bool :=
  c.SmallerThan other || (c.LogFile = other.LogFile && c.LogPos = other.LogPos)

/-- The binlog `end_log_pos` header field is a 4-byte integer; its largest
representable value. -/
def MaxLogPosLimit : Int := 4294967295

/-- Modelled from the spec: `BinlogCoordinates.IsLogPosOverflowBeyond4Bytes`
(not under src/).  Spec §3/§9: within one log file (no observed rotation) it
detects that the 4-byte `end_log_pos` counter of the current event wrapped
past the 4-byte range, comparing only against the last-applied hint — the
last applied end position plus the current event size exceeds the 4-byte
limit. -/
def BinlogCoordinates.IsLogPosOverflowBeyond4Bytes
    (c preCoordinates : BinlogCoordinates) : Bool :=
  c.LogFile = preCoordinates.LogFile && preCoordinates.LogPos + c.EventSize > MaxLogPosLimit

/-- Rendering of a coordinate by `fmt` `%+v` (used in error messages). -/
def coordStr (c : BinlogCoordinates) : String :=
  "\x7bLogFile:" ++ c.LogFile ++ " LogPos:" ++ toString c.LogPos ++
    " EventSize:" ++ toString c.EventSize ++ "\x7d"

/- ===== Change record model (spec §3, gh-ost go/binlog, not under src/) ===== -/

inductive EventDML where
  | InsertDML : EventDML
  | UpdateDML : EventDML
  | DeleteDML : EventDML
  | NotDML : EventDML
deriving DecidableEq

/-- Modelled from the spec: `ToEventDML` (go/binlog/binlog_dml_event.go, not
under src/) classifies the raw event-type name; spec §4.2 recognises the
insert/update/delete row-event types and maps anything else to `NotDML`. -/
def ToEventDML (description : String) : EventDML :=
  if description = "WriteRowsEventV2" then EventDML.InsertDML
  else if description = "UpdateRowsEventV2" then EventDML.UpdateDML
  else if description = "DeleteRowsEventV2" then EventDML.DeleteDML
  else EventDML.NotDML

/-- A raw row: an ordered sequence of column values (spec §3). -/
abbrev RawRow := List String

/-- Modelled from the spec: `sql.ColumnValues` (go/sql, not under src/) — an
ordered sequence of column values. -/
structure ColumnValues where
  abstractValues : RawRow
deriving DecidableEq

/-- Modelled from the spec: `sql.ToColumnValues` wraps a raw row. -/
def ToColumnValues (row : RawRow) : ColumnValues :=
  ⟨row⟩

/-- Modelled from the spec: `BinlogDMLEvent` (go/binlog, not under src/) —
the Mutation of spec §3: schema, table, kind, optional before/after images. -/
structure BinlogDMLEvent where
  DatabaseName : String
  TableName : String
  DML : EventDML
  WhereColumnValues : Option ColumnValues
  NewColumnValues : Option ColumnValues
deriving DecidableEq

/-- Modelled from the spec: `NewBinlogDMLEvent` — a Mutation with no images
populated yet. -/
def NewBinlogDMLEvent (databaseName tableName : String) (dml : EventDML) : BinlogDMLEvent :=
  ⟨databaseName, tableName, dml, none, none⟩

/-- Modelled from the spec: `BinlogEntry` (go/binlog, not under src/) — the
Entry of spec §3: a coordinate plus its Mutation. -/
structure BinlogEntry where
  Coordinates : BinlogCoordinates
  DmlEvent : Option BinlogDMLEvent
deriving DecidableEq

/-- Modelled from the spec: `NewBinlogEntryAt` — an Entry carrying a
coordinate, Mutation not yet attached. -/
def NewBinlogEntryAt (coordinates : BinlogCoordinates) : BinlogEntry :=
  ⟨coordinates, none⟩

/-- The payload of a raw row-change event: table identity plus the ordered
raw rows (`replication.RowsEvent`). -/
structure RowsEventData where
  Schema : String
  Table : String
  Rows : List RawRow
deriving DecidableEq

/- ===== Reader state and the circuit breaker (gomysql_reader.go) ===== -/

/-- The configuration surface consumed from the migration context:
`MaxAuthFailures` (0 = disabled circuit breaker). -/
structure MigrationContext where
  MaxAuthFailures : Int
deriving DecidableEq

/-- The mutable state of `GoMySQLReader` (gomysql_reader.go:25-34); the
syncer/streamer handles and the mutex carry no modelled state. -/
structure GoMySQLReader where
  migrationContext : MigrationContext
  currentCoordinates : BinlogCoordinates
  LastAppliedRowsEventHint : BinlogCoordinates
  authFailureCount : Int
deriving DecidableEq

def trippedPrefix (count maxFailures : Int) (ctx : String) : String :=
  "authentication failed " ++ toString count ++ " times (max: " ++
    toString maxFailures ++ ") during " ++ ctx ++
    ", aborting to prevent firewall blocking: "

/-- The distinctly-wrapped fatal error returned when the circuit breaker
trips (gomysql_reader.go:78-79): `fmt.Errorf` with a trailing `%w`. -/
def trippedError (count maxFailures : Int) (ctx : String) (cause : GoError) : GoError :=
  GoError.wrapped (trippedPrefix count maxFailures ctx) cause

/-- `handleAuthError` (gomysql_reader.go:59-86): success resets the counter;
non-auth errors pass through; auth errors increment the counter and trip the
breaker when a positive configured maximum is reached. -/
def handleAuthError (r : GoMySQLReader) (err : Option GoError) (ctx : String) :
    GoMySQLReader × Option GoError :=
  match err with
  | none =>
      if r.authFailureCount > 0 then ({ r with authFailureCount := 0 }, none)
      else (r, none)
  | some e =>
      if ¬ (isAuthenticationError (some e)) then (r, some e)
      else
        let r := { r with authFailureCount := r.authFailureCount + 1 }
        if r.migrationContext.MaxAuthFailures > 0 ∧
            r.authFailureCount ≥ r.migrationContext.MaxAuthFailures then
          (r, some (trippedError r.authFailureCount r.migrationContext.MaxAuthFailures ctx e))
        else
          (r, some e)

/-- Feed a sequence of stream errors through `handleAuthError` one at a
time, collecting each returned verdict. -/
def runAuthErrors (r : GoMySQLReader) (ctx : String) : List GoError → List (Option GoError)
  | [] => []
  | e :: rest =>
      (handleAuthError r (some e) ctx).2 ::
        runAuthErrors (handleAuthError r (some e) ctx).1 ctx rest

def emptyCoordinatesMsg : String := "Empty coordinates at ConnectBinlogStreamer()"

/-- `ConnectBinlogStreamer` (gomysql_reader.go:89-104).  The external
`StartSync` call is abstracted by its result (`startSyncErr`): the supplied
coordinate is assigned to `currentCoordinates` first, then the start-sync
verdict goes through the circuit breaker. -/
def ConnectBinlogStreamer (r : GoMySQLReader) (coordinates : BinlogCoordinates)
    (startSyncErr : Option GoError) : GoMySQLReader × Option GoError :=
  if coordinates.IsEmpty then (r, some (GoError.simple emptyCoordinatesMsg))
  else
    let r := { r with currentCoordinates := coordinates }
    handleAuthError r startSyncErr "connection"

/- ===== handleRowsEvent (gomysql_reader.go:114-163) ===== -/

/-- The outcome of `handleRowsEvent`: a normal return of `nil`, a returned
error, or a Go runtime panic (index out of range) aborting the call. -/
inductive RowsOutcome where
  | ok : RowsOutcome
  | errorOut (e : GoError) : RowsOutcome
  | crash (msg : String) : RowsOutcome
deriving DecidableEq

def RowsOutcome.isError : RowsOutcome → Bool
  | RowsOutcome.errorOut _ => true
  | _ => false

def RowsOutcome.isCrash : RowsOutcome → Bool
  | RowsOutcome.crash _ => true
  | _ => false

def indexOutOfRangeMsg : String := "runtime error: index out of range"

def overflowMsgA : String := "Unexpected rows event at "

def overflowMsgB : String := ", the binlog end_log_pos is overflow 4 bytes"

def unknownDmlMsg : String := "Unknown DML type: "

/-- The `for i, row := range rowsEvent.Rows` loop of `handleRowsEvent`
(gomysql_reader.go:128-160), iterating by absolute index `i`.  For an update
the odd indices are skipped and the pair partner is read at `Rows[i+1]`,
which panics (index out of range) when it does not exist.  Returns the
entries sent on the channel before completion or abort, and the outcome. -/
def processRows (coord : BinlogCoordinates) (schema tbl : String) (dml : EventDML)
    (rows : List RawRow) (i : Nat) : List BinlogEntry × RowsOutcome :=
  if h : i < rows.length then
    if dml = EventDML.UpdateDML ∧ i % 2 = 1 then
      processRows coord schema tbl dml rows (i + 1)
    else
      let row := rows.get ⟨i, h⟩
      let ev0 := NewBinlogDMLEvent schema tbl dml
      match dml with
      | EventDML.InsertDML =>
          let entry : BinlogEntry :=
            { Coordinates := coord,
              DmlEvent := some { ev0 with NewColumnValues := some (ToColumnValues row) } }
          let rest := processRows coord schema tbl dml rows (i + 1)
          (entry :: rest.1, rest.2)
      | EventDML.UpdateDML =>
          if h2 : i + 1 < rows.length then
            let entry : BinlogEntry :=
              { Coordinates := coord,
                DmlEvent := some
                  { ev0 with
                    WhereColumnValues := some (ToColumnValues row),
                    NewColumnValues := some (ToColumnValues (rows.get ⟨i + 1, h2⟩)) } }
            let rest := processRows coord schema tbl dml rows (i + 1)
            (entry :: rest.1, rest.2)
          else
            ([], RowsOutcome.crash indexOutOfRangeMsg)
      | EventDML.DeleteDML =>
          let entry : BinlogEntry :=
            { Coordinates := coord,
              DmlEvent := some { ev0 with WhereColumnValues := some (ToColumnValues row) } }
          let rest := processRows coord schema tbl dml rows (i + 1)
          (entry :: rest.1, rest.2)
      | EventDML.NotDML =>
          let entry : BinlogEntry := { Coordinates := coord, DmlEvent := some ev0 }
          let rest := processRows coord schema tbl dml rows (i + 1)
          (entry :: rest.1, rest.2)
  else
    ([], RowsOutcome.ok)
termination_by rows.length - i

/-- `handleRowsEvent` (gomysql_reader.go:114-163): overflow guard, then the
duplicate-skip replay guard, then DML classification, then the row loop; the
last-applied hint is updated only when the loop runs to completion.  Returns
the new reader state, the entries sent on the channel, and the outcome. -/
def handleRowsEvent (r : GoMySQLReader) (eventType : String) (rowsEvent : RowsEventData) :
    GoMySQLReader × List BinlogEntry × RowsOutcome :=
  if r.currentCoordinates.IsLogPosOverflowBeyond4Bytes r.LastAppliedRowsEventHint then
    (r, [], RowsOutcome.errorOut
      (GoError.simple (overflowMsgA ++ coordStr r.currentCoordinates ++ overflowMsgB)))
  else if r.currentCoordinates.SmallerThanOrEquals r.LastAppliedRowsEventHint then
    (r, [], RowsOutcome.ok)
  else
    let dml := ToEventDML eventType
    if dml = EventDML.NotDML then
      (r, [], RowsOutcome.errorOut (GoError.simple (unknownDmlMsg ++ eventType)))
    else
      let res := processRows r.currentCoordinates rowsEvent.Schema rowsEvent.Table dml rowsEvent.Rows 0
      match res.2 with
      | RowsOutcome.ok =>
          ({ r with LastAppliedRowsEventHint := r.currentCoordinates }, res.1, RowsOutcome.ok)
      | out => (r, res.1, out)

/- ===== Generic helper lemmas ===== -/

theorem strContains_self (s : String) : strContains s s = true :=
  strContains_of_infix (List.infix_refl _)

theorem strContains_append_left {s pat : String} (t : String)
    (h : strContains s pat = true) : strContains (s ++ t) pat = true := by
  rw [strContains, listContainsSub_iff] at h ⊢
  obtain ⟨u, v, huv⟩ := h
  exact ⟨u, v ++ t.data, by rw [String.data_append, ← huv]; simp⟩

theorem strContains_append_right {t pat : String} (s : String)
    (h : strContains t pat = true) : strContains (s ++ t) pat = true := by
  rw [strContains, listContainsSub_iff] at h ⊢
  obtain ⟨u, v, huv⟩ := h
  exact ⟨s.data ++ u, v, by rw [String.data_append, ← huv]; simp⟩

theorem handleAuthError_preserves_coordinates (r : GoMySQLReader) (err : Option GoError)
    (ctx : String) :
    (handleAuthError r err ctx).1.currentCoordinates = r.currentCoordinates ∧
    (handleAuthError r err ctx).1.LastAppliedRowsEventHint = r.LastAppliedRowsEventHint := by
  unfold handleAuthError
  cases err with
  | none => by_cases h : r.authFailureCount > 0 <;> simp [h]
  | some e =>
      by_cases h : isAuthenticationError (some e) <;> simp [h]
      split <;> simp

/- ===== Claim theorems ===== -/

/-- Claim C6: for every prior counter value (all reachable counters are
non-negative), passing a nil error to `handleAuthError` resets the
authentication-failure counter to 0 and returns nil, leaving the rest of the
reader state unchanged — even when the prior count was at or above the trip
threshold. -/
theorem claim_C6_nil_resets_counter (r : GoMySQLReader) (ctx : String)
    (h : 0 ≤ r.authFailureCount) :
    handleAuthError r none ctx = ({ r with authFailureCount := 0 }, none) := by
  unfold handleAuthError
  by_cases hc : r.authFailureCount > 0
  · simp [hc]
  · have h0 : r.authFailureCount = 0 := le_antisymm (not_lt.mp hc) h
    cases r
    simp_all

theorem claim_C6_nil_resets_counter_witness :
    handleAuthError ⟨⟨5⟩, ⟨ "bin.000001", 100, 50⟩, ⟨ "bin.000001", 40, 30⟩, 7⟩
        none "event retrieval" =
      (⟨⟨5⟩, ⟨ "bin.000001", 100, 50⟩, ⟨ "bin.000001", 40, 30⟩, 0⟩, none) :=
  claim_C6_nil_resets_counter ⟨⟨5⟩, ⟨ "bin.000001", 100, 50⟩, ⟨ "bin.000001", 40, 30⟩, 7⟩
    "event retrieval" (by decide)

/-- Claim C8: whenever the current coordinate and the last-applied hint stand
in the 4-byte log-position overflow relationship, `handleRowsEvent` returns
an error immediately: zero entries are emitted, the state is unchanged (the
condition is never auto-corrected), and neither the duplicate-skip guard nor
any decoding takes place (the result does not depend on the coordinate
ordering or on the event type). -/
theorem claim_C8_overflow_fails_immediately (r : GoMySQLReader) (eventType : String)
    (rowsEvent : RowsEventData)
    (h : r.currentCoordinates.IsLogPosOverflowBeyond4Bytes r.LastAppliedRowsEventHint = true) :
    handleRowsEvent r eventType rowsEvent =
      (r, [], RowsOutcome.errorOut (GoError.simple
        (overflowMsgA ++ coordStr r.currentCoordinates ++ overflowMsgB))) := by
  unfold handleRowsEvent
  simp [h]

theorem claim_C8_overflow_fails_immediately_witness :
    handleRowsEvent ⟨⟨3⟩, ⟨ "bin.000001", 100, 1000⟩, ⟨ "bin.000001", 4294967000, 30⟩, 0⟩
        "UpdateRowsEventV2" ⟨ "db", "tbl", [ [ "b1"], [ "a1"] ]⟩ =
      (⟨⟨3⟩, ⟨ "bin.000001", 100, 1000⟩, ⟨ "bin.000001", 4294967000, 30⟩, 0⟩, [],
        RowsOutcome.errorOut (GoError.simple
          (overflowMsgA ++ coordStr ⟨ "bin.000001", 100, 1000⟩ ++ overflowMsgB))) :=
  claim_C8_overflow_fails_immediately
    ⟨⟨3⟩, ⟨ "bin.000001", 100, 1000⟩, ⟨ "bin.000001", 4294967000, 30⟩, 0⟩
    "UpdateRowsEventV2" ⟨ "db", "tbl", [ [ "b1"], [ "a1"] ]⟩ (by decide)

/-- Claim C9: the duplicate-skip check runs before the operation-type
classification — for every row-change event whose coordinate is not strictly
greater than the last-applied hint, even one with an unrecognised operation
type, the call returns nil with zero entries, provided the overflow guard
(the only check that precedes the skip) does not fire; when the overflow
guard does fire, an error is returned instead. -/
theorem claim_C9_skip_precedes_classification (r : GoMySQLReader) (eventType : String)
    (rowsEvent : RowsEventData) :
    (r.currentCoordinates.IsLogPosOverflowBeyond4Bytes r.LastAppliedRowsEventHint = false →
      r.currentCoordinates.SmallerThanOrEquals r.LastAppliedRowsEventHint = true →
      handleRowsEvent r eventType rowsEvent = (r, [], RowsOutcome.ok))
    ∧ (r.currentCoordinates.IsLogPosOverflowBeyond4Bytes r.LastAppliedRowsEventHint = true →
      (handleRowsEvent r eventType rowsEvent).2.2.isError = true) := by
  constructor
  · intro h1 h2
    unfold handleRowsEvent
    simp [h1, h2]
  · intro h1
    unfold handleRowsEvent
    simp [h1, RowsOutcome.isError]

theorem claim_C9_skip_precedes_classification_witness :
    handleRowsEvent ⟨⟨3⟩, ⟨ "bin.000001", 40, 30⟩, ⟨ "bin.000001", 100, 50⟩, 0⟩
        "GtidEvent" ⟨ "db", "tbl", [ [ "x"] ]⟩ =
      (⟨⟨3⟩, ⟨ "bin.000001", 40, 30⟩, ⟨ "bin.000001", 100, 50⟩, 0⟩, [], RowsOutcome.ok) :=
  (claim_C9_skip_precedes_classification
      ⟨⟨3⟩, ⟨ "bin.000001", 40, 30⟩, ⟨ "bin.000001", 100, 50⟩, 0⟩
      "GtidEvent" ⟨ "db", "tbl", [ [ "x"] ]⟩).1 (by decide) (by decide)

/-- Claim C3 (counterexample): the claim "every event whose coordinate is
less than or equal to the last-applied hint is skipped with zero Entries and
no error" fails when the coordinates additionally stand in the 4-byte
overflow relationship — the wrapped-position scenario — where the call
returns an error instead of skipping. -/
theorem claim_C3_counterexample :
    (BinlogCoordinates.SmallerThanOrEquals ⟨ "bin.000001", 100, 900⟩
        ⟨ "bin.000001", 4294967000, 30⟩ = true)
    ∧ ((handleRowsEvent ⟨⟨3⟩, ⟨ "bin.000001", 100, 900⟩, ⟨ "bin.000001", 4294967000, 30⟩, 0⟩
          "WriteRowsEventV2" ⟨ "db", "tbl", [ [ "v"] ]⟩).2.2.isError = true) := by
  decide

/-- Claim C3 (amended): provided the 4-byte overflow guard — the one check
that precedes the replay guard — does not fire, every incoming row-change
event whose coordinate is less than or equal to the last-applied hint is
skipped: zero Entries are sent, no error is returned, and the state is
unchanged. -/
theorem claim_C3_duplicate_skipped (r : GoMySQLReader) (eventType : String)
    (rowsEvent : RowsEventData)
    (hov : r.currentCoordinates.IsLogPosOverflowBeyond4Bytes r.LastAppliedRowsEventHint = false)
    (hle : r.currentCoordinates.SmallerThanOrEquals r.LastAppliedRowsEventHint = true) :
    (handleRowsEvent r eventType rowsEvent).2.1 = [] ∧
    (handleRowsEvent r eventType rowsEvent).2.2 = RowsOutcome.ok ∧
    (handleRowsEvent r eventType rowsEvent).1 = r := by
  unfold handleRowsEvent
  simp [hov, hle]

theorem claim_C3_duplicate_skipped_witness :
    ((handleRowsEvent ⟨⟨2⟩, ⟨ "bin.000007", 500, 20⟩, ⟨ "bin.000007", 500, 20⟩, 1⟩
        "UpdateRowsEventV2" ⟨ "s", "t", [ [ "b"], [ "a"] ]⟩).2.1 = []) ∧
    ((handleRowsEvent ⟨⟨2⟩, ⟨ "bin.000007", 500, 20⟩, ⟨ "bin.000007", 500, 20⟩, 1⟩
        "UpdateRowsEventV2" ⟨ "s", "t", [ [ "b"], [ "a"] ]⟩).2.2 = RowsOutcome.ok) ∧
    ((handleRowsEvent ⟨⟨2⟩, ⟨ "bin.000007", 500, 20⟩, ⟨ "bin.000007", 500, 20⟩, 1⟩
        "UpdateRowsEventV2" ⟨ "s", "t", [ [ "b"], [ "a"] ]⟩).1 =
      ⟨⟨2⟩, ⟨ "bin.000007", 500, 20⟩, ⟨ "bin.000007", 500, 20⟩, 1⟩) :=
  claim_C3_duplicate_skipped ⟨⟨2⟩, ⟨ "bin.000007", 500, 20⟩, ⟨ "bin.000007", 500, 20⟩, 1⟩
    "UpdateRowsEventV2" ⟨ "s", "t", [ [ "b"], [ "a"] ]⟩ (by decide) (by decide)

/-- Claim C10: `ConnectBinlogStreamer` assigns the supplied non-empty
coordinate to `currentCoordinates` before attempting to start the sync
session, so even when the start-sync attempt fails the current coordinate
equals the supplied coordinate — connection failure does not roll it back. -/
theorem claim_C10_connect_assigns_coordinates (r : GoMySQLReader)
    (coordinates : BinlogCoordinates) (startSyncErr : Option GoError)
    (h : coordinates.IsEmpty = false) :
    ((ConnectBinlogStreamer r coordinates startSyncErr).1).currentCoordinates = coordinates := by
  unfold ConnectBinlogStreamer
  simp only [h, Bool.false_eq_true, if_false]
  exact (handleAuthError_preserves_coordinates _ _ _).1

theorem claim_C10_connect_assigns_coordinates_witness :
    ((ConnectBinlogStreamer ⟨⟨3⟩, ⟨ "bin.000001", 100, 50⟩, ⟨ "bin.000001", 40, 30⟩, 0⟩
        ⟨ "bin.000002", 4, 0⟩ (some (GoError.simple "dial tcp: connection refused"))).1).currentCoordinates =
      ⟨ "bin.000002", 4, 0⟩ :=
  claim_C10_connect_assigns_coordinates
    ⟨⟨3⟩, ⟨ "bin.000001", 100, 50⟩, ⟨ "bin.000001", 40, 30⟩, 0⟩
    ⟨ "bin.000002", 4, 0⟩ (some (GoError.simple "dial tcp: connection refused")) (by decide)

/- ===== Claim C4 ===== -/

/-- Spec-side characterisation for claim C4: some typed MySQL protocol error
in the wrap chain (at any depth) carries a recognised auth-denial code. -/
def errorChainHasAuthCode : GoError → Bool
  | GoError.myError code _ => authErrorCodes.contains code
  | GoError.simple _ => false
  | GoError.wrapped _ cause => errorChainHasAuthCode cause

/-- Spec-side text fallback for claim C4: the rendered message contains,
case-insensitively, "access denied" or "authentication failed". -/
def matchesAuthText (e : GoError) : Bool :=
  strContains (strToLower (errString e)) accessDeniedText ||
    strContains (strToLower (errString e)) authenticationFailedText

theorem errorsAs_code_check (e : GoError) :
    (match errorsAsMyError e with
     | some code => authErrorCodes.contains code
     | none => false) = errorChainHasAuthCode e := by
  induction e with
  | myError code message => rfl
  | simple msg => rfl
  | wrapped pre cause ih => simpa [errorsAsMyError, errorChainHasAuthCode] using ih

theorem strContains_toLower_wrap (preStr : String) (e : GoError) (pat : String)
    (h : strContains (strToLower (errString e)) pat = true) :
    strContains (strToLower (errString (GoError.wrapped preStr e))) pat = true := by
  rw [strContains, listContainsSub_iff] at h ⊢
  obtain ⟨u, v, huv⟩ := h
  have huv2 : u ++ pat.data ++ v = (errString e).data.map Char.toLower := huv
  refine ⟨preStr.data.map Char.toLower ++ u, v, ?_⟩
  simp only [errString, strToLower, String.data_append, List.map_append, List.append_assoc,
    ← huv2]

/-- Claim C4: `isAuthenticationError` returns true exactly when the error is
(or wraps, at any depth) a typed MySQL protocol error whose code is in the
recognised set \x7b1044, 1045, 1130, 1698, 3118\x7d, or its rendered message
contains, case-insensitively, "access denied" or "authentication failed";
the verdict survives further wrapping, and for every error matching neither
condition `handleAuthError` returns the error unmodified with the failure
counter (and the whole reader state) unchanged. -/
theorem claim_C4_classification (e : GoError) (pre ctx : String) (r : GoMySQLReader) :
    (isAuthenticationError (some e) = (errorChainHasAuthCode e || matchesAuthText e))
    ∧ (isAuthenticationError (some e) = true →
        isAuthenticationError (some (GoError.wrapped pre e)) = true)
    ∧ (isAuthenticationError (some e) = false →
        handleAuthError r (some e) ctx = (r, some e)) := by
  refine ⟨?_, ?_, ?_⟩
  · show (_ || _) = _
    rw [errorsAs_code_check]
    rfl
  · intro h
    rw [isAuthenticationError, Bool.or_eq_true] at h ⊢
    rcases h with h | h
    · left
      have : errorsAsMyError (GoError.wrapped pre e) = errorsAsMyError e := rfl
      rw [this]
      exact h
    · right
      rw [Bool.or_eq_true] at h ⊢
      rcases h with h | h
      · exact Or.inl (strContains_toLower_wrap pre e _ h)
      · exact Or.inr (strContains_toLower_wrap pre e _ h)
  · intro h
    unfold handleAuthError
    simp [h]

theorem claim_C4_classification_witness :
    (isAuthenticationError
        (some (GoError.wrapped "connection failed: " (GoError.myError 1045 "Access denied"))) = true)
    ∧ (handleAuthError ⟨⟨5⟩, ⟨ "bin.000001", 100, 50⟩, ⟨ "bin.000001", 40, 30⟩, 2⟩
          (some (GoError.simple "connection timeout")) "streaming" =
        (⟨⟨5⟩, ⟨ "bin.000001", 100, 50⟩, ⟨ "bin.000001", 40, 30⟩, 2⟩,
          some (GoError.simple "connection timeout"))) := by
  constructor
  · rw [(claim_C4_classification
        (GoError.wrapped "connection failed: " (GoError.myError 1045 "Access denied"))
        "x" "streaming" ⟨⟨5⟩, ⟨ "bin.000001", 100, 50⟩, ⟨ "bin.000001", 40, 30⟩, 2⟩).1]
    decide
  · exact (claim_C4_classification (GoError.simple "connection timeout") "x" "streaming"
      ⟨⟨5⟩, ⟨ "bin.000001", 100, 50⟩, ⟨ "bin.000001", 40, 30⟩, 2⟩).2.2 (by decide)

/- ===== Claim C1 ===== -/

theorem handleAuthError_auth_step (r : GoMySQLReader) (e : GoError) (ctx : String)
    (h : isAuthenticationError (some e) = true) :
    handleAuthError r (some e) ctx =
      ({ r with authFailureCount := r.authFailureCount + 1 },
       if r.migrationContext.MaxAuthFailures > 0 ∧
           r.authFailureCount + 1 ≥ r.migrationContext.MaxAuthFailures
       then some (trippedError (r.authFailureCount + 1) r.migrationContext.MaxAuthFailures ctx e)
       else some e) := by
  unfold handleAuthError
  simp only [h, not_true_eq_false, if_false, reduceIte]
  split <;> rfl

theorem runAuthErrors_formula (ctx : String) (errs : List GoError)
    (hall : ∀ e ∈ errs, isAuthenticationError (some e) = true) :
    ∀ (r : GoMySQLReader) (i : Nat) (e : GoError), errs.get? i = some e →
      (runAuthErrors r ctx errs).get? i =
        some (if r.migrationContext.MaxAuthFailures > 0 ∧
                r.authFailureCount + (i : Int) + 1 ≥ r.migrationContext.MaxAuthFailures
              then some (trippedError (r.authFailureCount + (i : Int) + 1)
                          r.migrationContext.MaxAuthFailures ctx e)
              else some e) := by
  induction errs with
  | nil => intro r i e h; simp at h
  | cons e0 rest ih =>
      intro r i e hget
      have h0 : isAuthenticationError (some e0) = true := hall e0 (by simp)
      have hrest : ∀ x ∈ rest, isAuthenticationError (some x) = true :=
        fun x hx => hall x (by simp [hx])
      cases i with
      | zero =>
          rw [List.get?_cons_zero, Option.some.injEq] at hget
          subst hget
          rw [runAuthErrors, handleAuthError_auth_step r e0 ctx h0]
          simp
      | succ n =>
          rw [List.get?_cons_succ] at hget
          rw [runAuthErrors, handleAuthError_auth_step r e0 ctx h0, List.get?_cons_succ]
          have := ih hrest { r with authFailureCount := r.authFailureCount + 1 } n e hget
          rw [this]
          have harith : r.authFailureCount + 1 + (n : Int) + 1 =
              r.authFailureCount + ((n : Nat) + 1 : Nat) + 1 := by push_cast; ring
          rw [show ({ r with authFailureCount := r.authFailureCount + 1 } :
            GoMySQLReader).migrationContext = r.migrationContext from rfl]
          rw [show ({ r with authFailureCount := r.authFailureCount + 1 } :
            GoMySQLReader).authFailureCount = r.authFailureCount + 1 from rfl]
          rw [harith]

/-- Claim C1: starting from a fresh counter, feed any sequence of
consecutive classified authentication failures (no intervening success)
through `handleAuthError` with configured maximum `N`.  If `N > 0` the call
returns the distinctly-wrapped tripped error exactly from the `N`-th
consecutive failure onward and returns the original error unmodified for the
first `N - 1` failures; if `N = 0` (and likewise any `N ≤ 0`) it never
returns the tripped error however long the sequence; and the tripped error's
rendered message names both the failure count and the configured maximum,
and wraps the original cause. -/
theorem claim_C1_breaker_trips_at_N (N : Int) (ctx : String) (errs : List GoError)
    (hall : ∀ e ∈ errs, isAuthenticationError (some e) = true)
    (r : GoMySQLReader) (h0 : r.authFailureCount = 0)
    (hN : r.migrationContext.MaxAuthFailures = N)
    (i : Nat) (e : GoError) (hget : errs.get? i = some e) :
    ((runAuthErrors r ctx errs).get? i =
      some (if N > 0 ∧ ((i : Int) + 1) ≥ N
            then some (trippedError ((i : Int) + 1) N ctx e)
            else some e))
    ∧ strContains (errString (trippedError ((i : Int) + 1) N ctx e))
        (toString ((i : Int) + 1)) = true
    ∧ strContains (errString (trippedError ((i : Int) + 1) N ctx e)) (toString N) = true
    ∧ unwrapOnce (trippedError ((i : Int) + 1) N ctx e) = some e := by
  refine ⟨?_, ?_, ?_, ?_⟩
  · have := runAuthErrors_formula ctx errs hall r i e hget
    rw [this, h0, hN]
    norm_num
  · show strContains (trippedPrefix ((i : Int) + 1) N ctx ++ errString e) _ = true
    apply strContains_append_left
    unfold trippedPrefix
    apply strContains_append_left
    apply strContains_append_left
    apply strContains_append_left
    apply strContains_append_left
    apply strContains_append_left
    apply strContains_append_right
    exact strContains_self _
  · show strContains (trippedPrefix ((i : Int) + 1) N ctx ++ errString e) _ = true
    apply strContains_append_left
    unfold trippedPrefix
    apply strContains_append_left
    apply strContains_append_left
    apply strContains_append_left
    apply strContains_append_right
    exact strContains_self _
  · rfl

theorem claim_C1_breaker_trips_at_N_witness :
    ((runAuthErrors ⟨⟨2⟩, ⟨ "bin.000001", 100, 50⟩, ⟨ "bin.000001", 40, 30⟩, 0⟩ "streaming"
        [GoError.simple "access denied for user", GoError.simple "access denied for user",
         GoError.simple "access denied for user"]).get? 1 =
      some (if (2 : Int) > 0 ∧ ((1 : Nat) : Int) + 1 ≥ 2
            then some (trippedError (((1 : Nat) : Int) + 1) 2 "streaming"
                        (GoError.simple "access denied for user"))
            else some (GoError.simple "access denied for user")))
    ∧ strContains (errString (trippedError (((1 : Nat) : Int) + 1) 2 "streaming"
        (GoError.simple "access denied for user"))) (toString (((1 : Nat) : Int) + 1)) = true
    ∧ strContains (errString (trippedError (((1 : Nat) : Int) + 1) 2 "streaming"
        (GoError.simple "access denied for user"))) (toString (2 : Int)) = true
    ∧ unwrapOnce (trippedError (((1 : Nat) : Int) + 1) 2 "streaming"
        (GoError.simple "access denied for user")) = some (GoError.simple "access denied for user") :=
  claim_C1_breaker_trips_at_N 2 "streaming"
    [GoError.simple "access denied for user", GoError.simple "access denied for user",
     GoError.simple "access denied for user"]
    (by decide)
    ⟨⟨2⟩, ⟨ "bin.000001", 100, 50⟩, ⟨ "bin.000001", 40, 30⟩, 0⟩ rfl rfl
    1 (GoError.simple "access denied for user") rfl

/- ===== Claims C2, C5, C7: the row loop ===== -/

/-- The Entry built for one update pair (gomysql_reader.go:134-149). -/
def updEntry (coord : BinlogCoordinates) (schema tbl : String) (b a : RawRow) : BinlogEntry :=
  { Coordinates := coord,
    DmlEvent := some
      { NewBinlogDMLEvent schema tbl EventDML.UpdateDML with
        WhereColumnValues := some (ToColumnValues b),
        NewColumnValues := some (ToColumnValues a) } }

/-- One Entry per (before, after) pair, in pair order; a trailing unpaired
row yields nothing. -/
def updateEntriesFrom (coord : BinlogCoordinates) (schema tbl : String) :
    List RawRow → List BinlogEntry
  | b :: a :: rest => updEntry coord schema tbl b a :: updateEntriesFrom coord schema tbl rest
  | _ => []

theorem processRows_stop (coord : BinlogCoordinates) (schema tbl : String) (dml : EventDML)
    (rows : List RawRow) (i : Nat) (h : ¬ i < rows.length) :
    processRows coord schema tbl dml rows i = ([], RowsOutcome.ok) := by
  rw [processRows]
  simp [h]

theorem processRows_upd_skip (coord : BinlogCoordinates) (schema tbl : String)
    (rows : List RawRow) (i : Nat) (h : i < rows.length) (hodd : i % 2 = 1) :
    processRows coord schema tbl EventDML.UpdateDML rows i =
      processRows coord schema tbl EventDML.UpdateDML rows (i + 1) := by
  rw [processRows]
  simp [h, hodd]

theorem processRows_upd_pair (coord : BinlogCoordinates) (schema tbl : String)
    (rows : List RawRow) (i : Nat) (hev : i % 2 = 0)
    (h : i < rows.length) (h2 : i + 1 < rows.length) :
    processRows coord schema tbl EventDML.UpdateDML rows i =
      (updEntry coord schema tbl rows[i] (rows[i + 1]) ::
        (processRows coord schema tbl EventDML.UpdateDML rows (i + 1)).1,
       (processRows coord schema tbl EventDML.UpdateDML rows (i + 1)).2) := by
  conv_lhs => rw [processRows]
  simp [h, h2, hev, updEntry]

theorem processRows_upd_crash (coord : BinlogCoordinates) (schema tbl : String)
    (rows : List RawRow) (i : Nat) (hev : i % 2 = 0)
    (h : i < rows.length) (h2 : ¬ i + 1 < rows.length) :
    processRows coord schema tbl EventDML.UpdateDML rows i =
      ([], RowsOutcome.crash indexOutOfRangeMsg) := by
  rw [processRows]
  simp [h, h2, hev]

theorem processRows_update_formula (coord : BinlogCoordinates) (schema tbl : String)
    (rows : List RawRow) :
    ∀ (i : Nat), i % 2 = 0 → i ≤ rows.length →
      processRows coord schema tbl EventDML.UpdateDML rows i =
        (updateEntriesFrom coord schema tbl (rows.drop i),
         if (rows.length - i) % 2 = 0 then RowsOutcome.ok
         else RowsOutcome.crash indexOutOfRangeMsg) := by
  have main : ∀ (n i : Nat), rows.length - i = n → i % 2 = 0 → i ≤ rows.length →
      processRows coord schema tbl EventDML.UpdateDML rows i =
        (updateEntriesFrom coord schema tbl (rows.drop i),
         if (rows.length - i) % 2 = 0 then RowsOutcome.ok
         else RowsOutcome.crash indexOutOfRangeMsg) := by
    intro n
    induction n using Nat.strong_induction_on with
    | _ n ih =>
        intro i hn hev hle
        by_cases h : i < rows.length
        · by_cases h2 : i + 1 < rows.length
          · rw [processRows_upd_pair coord schema tbl rows i hev h h2,
              processRows_upd_skip coord schema tbl rows (i + 1) h2 (by omega)]
            have hrec := ih (rows.length - (i + 2)) (by omega) (i + 2) rfl (by omega) (by omega)
            rw [hrec]
            have hdrop : rows.drop i = rows[i] :: rows[i + 1] :: rows.drop (i + 2) := by
              rw [List.drop_eq_getElem_cons h, List.drop_eq_getElem_cons h2]
            rw [hdrop]
            rw [show updateEntriesFrom coord schema tbl
                (rows[i] :: rows[i + 1] :: rows.drop (i + 2)) =
              updEntry coord schema tbl rows[i] (rows[i + 1]) ::
                updateEntriesFrom coord schema tbl (rows.drop (i + 2)) from rfl]
            have hmod : (rows.length - i) % 2 = (rows.length - (i + 2)) % 2 := by omega
            rw [hmod]
          · rw [processRows_upd_crash coord schema tbl rows i hev h h2]
            have hone : rows.drop i = [rows[i]] := by
              rw [List.drop_eq_getElem_cons h]
              have : rows.drop (i + 1) = [] := List.drop_eq_nil_of_le (by omega)
              rw [this]
            rw [hone]
            have : (rows.length - i) % 2 = 1 := by omega
            rw [this]
            rfl
        · rw [processRows_stop coord schema tbl EventDML.UpdateDML rows i h]
          have hi : i = rows.length := by omega
          subst hi
          simp [updateEntriesFrom, List.drop_eq_nil_of_le (le_refl _)]
  intro i
  exact main (rows.length - i) i rfl

theorem updateEntriesFrom_coordinates (coord : BinlogCoordinates) (schema tbl : String) :
    ∀ (rows : List RawRow), ∀ en ∈ updateEntriesFrom coord schema tbl rows,
      en.Coordinates = coord := by
  have main : ∀ (n : Nat) (rows : List RawRow), rows.length = n →
      ∀ en ∈ updateEntriesFrom coord schema tbl rows, en.Coordinates = coord := by
    intro n
    induction n using Nat.strong_induction_on with
    | _ n ih =>
        intro rows hn en hen
        rcases rows with _ | ⟨b, rest1⟩
        · simp [updateEntriesFrom] at hen
        · rcases rest1 with _ | ⟨a, rest⟩
          · simp [updateEntriesFrom] at hen
          · rw [show updateEntriesFrom coord schema tbl (b :: a :: rest) =
                updEntry coord schema tbl b a ::
                  updateEntriesFrom coord schema tbl rest from rfl] at hen
            rcases List.mem_cons.mp hen with h | h
            · subst h; rfl
            · exact ih rest.length (by simp at hn; omega) rest rfl en h
  intro rows
  exact main rows.length rows rfl

/-- Claim C5: for every update row-change event with an even number of rows
`[b1, a1, b2, a2, ...]` whose coordinate passes the guards (strictly greater
than the last-applied hint, no 4-byte overflow), `handleRowsEvent` consumes
the rows two at a time and emits exactly one Entry per pair, in pair order,
each carrying an Update mutation with before-image `b_i` and after-image
`a_i`, every Entry carrying the current coordinate; the loop completes and
the hint is updated to the current coordinate. -/
theorem claim_C5_update_pairs (r : GoMySQLReader) (eventType : String)
    (rowsEvent : RowsEventData)
    (hdml : ToEventDML eventType = EventDML.UpdateDML)
    (hov : r.currentCoordinates.IsLogPosOverflowBeyond4Bytes r.LastAppliedRowsEventHint = false)
    (hle : r.currentCoordinates.SmallerThanOrEquals r.LastAppliedRowsEventHint = false)
    (heven : rowsEvent.Rows.length % 2 = 0) :
    (handleRowsEvent r eventType rowsEvent =
      ({ r with LastAppliedRowsEventHint := r.currentCoordinates },
       updateEntriesFrom r.currentCoordinates rowsEvent.Schema rowsEvent.Table rowsEvent.Rows,
       RowsOutcome.ok))
    ∧ ∀ en ∈ updateEntriesFrom r.currentCoordinates rowsEvent.Schema rowsEvent.Table
        rowsEvent.Rows, en.Coordinates = r.currentCoordinates := by
  constructor
  · unfold handleRowsEvent
    rw [hov, hle, hdml]
    simp only [Bool.false_eq_true, if_false, reduceCtorEq, ite_false]
    rw [processRows_update_formula r.currentCoordinates rowsEvent.Schema rowsEvent.Table
      rowsEvent.Rows 0 (by omega) (by omega)]
    simp [heven]
  · exact updateEntriesFrom_coordinates r.currentCoordinates rowsEvent.Schema rowsEvent.Table
      rowsEvent.Rows

theorem claim_C5_update_pairs_witness :
    handleRowsEvent ⟨⟨3⟩, ⟨ "bin.000001", 720, 80⟩, ⟨ "bin.000001", 640, 40⟩, 0⟩
        "UpdateRowsEventV2" ⟨ "db", "tbl", [ [ "b1"], [ "a1"], [ "b2"], [ "a2"] ]⟩ =
      (⟨⟨3⟩, ⟨ "bin.000001", 720, 80⟩, ⟨ "bin.000001", 720, 80⟩, 0⟩,
       [updEntry ⟨ "bin.000001", 720, 80⟩ "db" "tbl" [ "b1"] [ "a1"],
        updEntry ⟨ "bin.000001", 720, 80⟩ "db" "tbl" [ "b2"] [ "a2"]],
       RowsOutcome.ok) :=
  (claim_C5_update_pairs ⟨⟨3⟩, ⟨ "bin.000001", 720, 80⟩, ⟨ "bin.000001", 640, 40⟩, 0⟩
    "UpdateRowsEventV2" ⟨ "db", "tbl", [ [ "b1"], [ "a1"], [ "b2"], [ "a2"] ]⟩
    (by decide) (by decide) (by decide) (by decide)).1

theorem handleRowsEvent_odd_update (r : GoMySQLReader) (eventType : String)
    (rowsEvent : RowsEventData)
    (hdml : ToEventDML eventType = EventDML.UpdateDML)
    (hov : r.currentCoordinates.IsLogPosOverflowBeyond4Bytes r.LastAppliedRowsEventHint = false)
    (hle : r.currentCoordinates.SmallerThanOrEquals r.LastAppliedRowsEventHint = false)
    (hodd : rowsEvent.Rows.length % 2 = 1) :
    handleRowsEvent r eventType rowsEvent =
      (r, updateEntriesFrom r.currentCoordinates rowsEvent.Schema rowsEvent.Table rowsEvent.Rows,
       RowsOutcome.crash indexOutOfRangeMsg) := by
  unfold handleRowsEvent
  rw [hov, hle, hdml]
  simp only [Bool.false_eq_true, if_false, reduceCtorEq, ite_false]
  rw [processRows_update_formula r.currentCoordinates rowsEvent.Schema rowsEvent.Table
    rowsEvent.Rows 0 (by omega) (by omega)]
  simp [hodd]

/-- Claim C2 (counterexample): the claim "an update event with an odd row
count produces a decode error" fails — on a one-row update event past the
guards the code performs an out-of-bounds access on `Rows[i+1]` and the call
aborts with a runtime panic, not a returned decode error. -/
theorem claim_C2_counterexample :
    ((handleRowsEvent ⟨⟨3⟩, ⟨ "bin.000001", 720, 80⟩, ⟨ "bin.000001", 640, 40⟩, 0⟩
        "UpdateRowsEventV2" ⟨ "db", "tbl", [ [ "b1"] ]⟩).2.2.isError = false)
    ∧ ((handleRowsEvent ⟨⟨3⟩, ⟨ "bin.000001", 720, 80⟩, ⟨ "bin.000001", 640, 40⟩, 0⟩
        "UpdateRowsEventV2" ⟨ "db", "tbl", [ [ "b1"] ]⟩).2.2 =
      RowsOutcome.crash indexOutOfRangeMsg) := by
  rw [handleRowsEvent_odd_update ⟨⟨3⟩, ⟨ "bin.000001", 720, 80⟩, ⟨ "bin.000001", 640, 40⟩, 0⟩
    "UpdateRowsEventV2" ⟨ "db", "tbl", [ [ "b1"] ]⟩ (by decide) (by decide) (by decide) (by decide)]
  exact ⟨rfl, rfl⟩

/-- Claim C2 (amended): for every update row-change event past the guards
whose row sequence has odd length, `handleRowsEvent` aborts with a runtime
index-out-of-range panic (not a returned decode error): the entries emitted
before the abort are exactly one complete before/after pair per two leading
rows (never a partially-formed Mutation, and the trailing row is never
silently emitted or dropped into a Mutation), and the last-applied hint is
not updated. -/
theorem claim_C2_odd_update_panics (r : GoMySQLReader) (eventType : String)
    (rowsEvent : RowsEventData)
    (hdml : ToEventDML eventType = EventDML.UpdateDML)
    (hov : r.currentCoordinates.IsLogPosOverflowBeyond4Bytes r.LastAppliedRowsEventHint = false)
    (hle : r.currentCoordinates.SmallerThanOrEquals r.LastAppliedRowsEventHint = false)
    (hodd : rowsEvent.Rows.length % 2 = 1) :
    handleRowsEvent r eventType rowsEvent =
      (r, updateEntriesFrom r.currentCoordinates rowsEvent.Schema rowsEvent.Table rowsEvent.Rows,
       RowsOutcome.crash indexOutOfRangeMsg) :=
  handleRowsEvent_odd_update r eventType rowsEvent hdml hov hle hodd

theorem claim_C2_odd_update_panics_witness :
    handleRowsEvent ⟨⟨3⟩, ⟨ "bin.000002", 900, 60⟩, ⟨ "bin.000002", 610, 40⟩, 0⟩
        "UpdateRowsEventV2" ⟨ "db2", "t2", [ [ "b1"], [ "a1"], [ "b2"] ]⟩ =
      (⟨⟨3⟩, ⟨ "bin.000002", 900, 60⟩, ⟨ "bin.000002", 610, 40⟩, 0⟩,
       [updEntry ⟨ "bin.000002", 900, 60⟩ "db2" "t2" [ "b1"] [ "a1"]],
       RowsOutcome.crash indexOutOfRangeMsg) :=
  claim_C2_odd_update_panics ⟨⟨3⟩, ⟨ "bin.000002", 900, 60⟩, ⟨ "bin.000002", 610, 40⟩, 0⟩
    "UpdateRowsEventV2" ⟨ "db2", "t2", [ [ "b1"], [ "a1"], [ "b2"] ]⟩
    (by decide) (by decide) (by decide) (by decide)

/-- Claim C7 (counterexample): the claim "every event with coordinate
strictly greater than the hint and an unrecognised operation type yields a
decode error naming the type" fails when the coordinates additionally stand
in the 4-byte overflow relationship: the overflow check runs first and its
error does not name the operation type. -/
theorem claim_C7_counterexample :
    (BinlogCoordinates.SmallerThanOrEquals ⟨ "bin.000001", 4294967200, 1000⟩
        ⟨ "bin.000001", 4294967000, 30⟩ = false)
    ∧ ((handleRowsEvent ⟨⟨3⟩, ⟨ "bin.000001", 4294967200, 1000⟩,
          ⟨ "bin.000001", 4294967000, 30⟩, 0⟩ "GtidEvent" ⟨ "db", "tbl", [ [ "v"] ]⟩).2.2.isError
        = true)
    ∧ ((match (handleRowsEvent ⟨⟨3⟩, ⟨ "bin.000001", 4294967200, 1000⟩,
          ⟨ "bin.000001", 4294967000, 30⟩, 0⟩ "GtidEvent" ⟨ "db", "tbl", [ [ "v"] ]⟩).2.2 with
        | RowsOutcome.errorOut e => strContains (errString e) "GtidEvent"
        | _ => true) = false) := by
  decide

/-- Claim C7 (amended): for every row-change event past the overflow guard
whose coordinate is strictly greater than the last-applied hint and whose
operation type is not insert, update or delete, `handleRowsEvent` returns a
decode error whose message names the unrecognised type, emits zero Entries
and leaves the state (in particular the last-applied hint) unchanged;
moreover, for every call whatsoever, the hint is updated only to the
current coordinate and only when the row loop has completed normally — never
partially. -/
theorem claim_C7_unknown_dml (r : GoMySQLReader) (eventType : String)
    (rowsEvent : RowsEventData)
    (hov : r.currentCoordinates.IsLogPosOverflowBeyond4Bytes r.LastAppliedRowsEventHint = false)
    (hle : r.currentCoordinates.SmallerThanOrEquals r.LastAppliedRowsEventHint = false)
    (hdml : ToEventDML eventType = EventDML.NotDML) :
    (handleRowsEvent r eventType rowsEvent =
      (r, [], RowsOutcome.errorOut (GoError.simple (unknownDmlMsg ++ eventType))))
    ∧ strContains (unknownDmlMsg ++ eventType) eventType = true
    ∧ ∀ (r2 : GoMySQLReader) (ty2 : String) (re2 : RowsEventData),
        (handleRowsEvent r2 ty2 re2).1.LastAppliedRowsEventHint ≠ r2.LastAppliedRowsEventHint →
        ((handleRowsEvent r2 ty2 re2).2.2 = RowsOutcome.ok ∧
         (handleRowsEvent r2 ty2 re2).1.LastAppliedRowsEventHint = r2.currentCoordinates) := by
  refine ⟨?_, ?_, ?_⟩
  · unfold handleRowsEvent
    rw [hov, hle, hdml]
    simp
  · exact strContains_append_right unknownDmlMsg (strContains_self eventType)
  · intro r2 ty2 re2 hne
    unfold handleRowsEvent at hne ⊢
    by_cases ho : r2.currentCoordinates.IsLogPosOverflowBeyond4Bytes
        r2.LastAppliedRowsEventHint = true
    · rw [ho] at hne
      simp at hne
    · rw [Bool.not_eq_true] at ho
      rw [ho] at hne ⊢
      by_cases hl : r2.currentCoordinates.SmallerThanOrEquals r2.LastAppliedRowsEventHint = true
      · rw [hl] at hne
        simp at hne
      · rw [Bool.not_eq_true] at hl
        rw [hl] at hne ⊢
        by_cases hd : ToEventDML ty2 = EventDML.NotDML
        · rw [hd] at hne
          simp at hne
        · simp only [Bool.false_eq_true, if_false, hd, ite_false] at hne ⊢
          cases hout : (processRows r2.currentCoordinates re2.Schema re2.Table
              (ToEventDML ty2) re2.Rows 0).2 with
          | ok => exact ⟨rfl, rfl⟩
          | errorOut e =>
              rw [hout] at hne
              simp at hne
          | crash m =>
              rw [hout] at hne
              simp at hne

theorem claim_C7_unknown_dml_witness :
    (handleRowsEvent ⟨⟨3⟩, ⟨ "bin.000003", 800, 90⟩, ⟨ "bin.000003", 500, 40⟩, 0⟩
        "XidEvent" ⟨ "db3", "t3", [ [ "v"] ]⟩ =
      (⟨⟨3⟩, ⟨ "bin.000003", 800, 90⟩, ⟨ "bin.000003", 500, 40⟩, 0⟩, [],
       RowsOutcome.errorOut (GoError.simple (unknownDmlMsg ++ "XidEvent"))))
    ∧ strContains (unknownDmlMsg ++ "XidEvent") "XidEvent" = true :=
  ⟨(claim_C7_unknown_dml ⟨⟨3⟩, ⟨ "bin.000003", 800, 90⟩, ⟨ "bin.000003", 500, 40⟩, 0⟩
      "XidEvent" ⟨ "db3", "t3", [ [ "v"] ]⟩ (by decide) (by decide) (by decide)).1,
   (claim_C7_unknown_dml ⟨⟨3⟩, ⟨ "bin.000003", 800, 90⟩, ⟨ "bin.000003", 500, 40⟩, 0⟩
      "XidEvent" ⟨ "db3", "t3", [ [ "v"] ]⟩ (by decide) (by decide) (by decide)).2.1⟩

/-- Claim C5 (counterexample): the claim "every even-length update event
whose coordinate is strictly greater than the last-applied hint yields one
Entry per before/after pair" fails when the coordinates additionally stand
in the 4-byte overflow relationship: the overflow check runs first, an error
is returned and zero Entries are emitted. -/
theorem claim_C5_counterexample :
    (BinlogCoordinates.SmallerThanOrEquals ⟨ "bin.000009", 4294967100, 500⟩
        ⟨ "bin.000009", 4294967000, 40⟩ = false)
    ∧ (([ [ "b1"], [ "a1"] ] : List RawRow).length % 2 = 0)
    ∧ ((handleRowsEvent ⟨⟨3⟩, ⟨ "bin.000009", 4294967100, 500⟩,
          ⟨ "bin.000009", 4294967000, 40⟩, 0⟩ "UpdateRowsEventV2"
          ⟨ "db", "tbl", [ [ "b1"], [ "a1"] ]⟩).2.1 = [])
    ∧ ((handleRowsEvent ⟨⟨3⟩, ⟨ "bin.000009", 4294967100, 500⟩,
          ⟨ "bin.000009", 4294967000, 40⟩, 0⟩ "UpdateRowsEventV2"
          ⟨ "db", "tbl", [ [ "b1"], [ "a1"] ]⟩).2.2.isError = true) := by
  decide
